import Mathlib

/-!
Verification development for the rssa_analyzer repository.

The byte-level reader (rssa_parser.py) is embedded as functions over
List Nat (one Nat per byte).  Fallible Python/numpy operations become
Except Err computations; each Err constructor records the concrete
exception site in the source:

  formatError        ValueError at rssa_parser.py line 48 (Fortran record
                     framing mismatch) and the numpy ValueError raised by
                     reshape(-1, 96) in read_tracks when the remaining byte
                     length is not a multiple of 96.
  unsupportedFormat  NotImplementedError at rssa_parser.py lines 62, 73, 80
                     and 100.
  decodeError        UnicodeDecodeError from data.tobytes().decode(UTF-8).
  bufferError        numpy ValueError from np.frombuffer when the buffer is
                     too small for the requested items, the offset exceeds
                     the buffer, or the remainder is not a multiple of the
                     item size.
  eofError           IndexError from np.fromfile(...)[0] when fewer than 4
                     bytes remain for a record length marker.
  invalidArgument    ValueError at rssa.py line 109 (unknown particle kind).
  emptyReduce        numpy ValueError from min/max reduction of an empty
                     array (plotter.py lines 60-65).
  indexError         numpy IndexError (axis[1] on a too-short axis in
                     closest, out-of-range np.add.at indices).
  typeError          TypeError raised by np.intersect1d when one argument
                     is None (plotter.py line 167).
  valueError         numpy ValueError from np.zeros with a negative
                     dimension or np.linspace with a negative sample count.
-/

set_option maxRecDepth 100000

inductive Err where
  | formatError
  | unsupportedFormat
  | decodeError
  | bufferError
  | eofError
  | invalidArgument
  | emptyReduce
  | indexError
  | typeError
  | valueError
deriving DecidableEq, Repr

/-- Little-endian interpretation of a byte list as an unsigned number. -/
def leNat (bs : List Nat) : Nat :=
  bs.foldr (fun b acc => b + 256 * acc) 0

/-- Little-endian two-complement interpretation of a byte list, as used by
numpy for int32 and int64 values. -/
def leSigned (bs : List Nat) : Int :=
  let n := leNat bs
  if 2 * n < 2 ^ (8 * bs.length) then (n : Int) else (n : Int) - 2 ^ (8 * bs.length)

/-- Fuel-driven splitting of a list into consecutive chunks of k elements,
mirroring a numpy reshape; the fuel is the list length so the definition is
structural and reduces inside the kernel. -/
def chunksAux (k : Nat) : Nat → List Nat → List (List Nat)
  | 0, _ => []
  | _, [] => []
  | fuel + 1, a :: l => (a :: l).take k :: chunksAux k fuel ((a :: l).drop k)

def chunks (k : Nat) (l : List Nat) : List (List Nat) :=
  chunksAux k l.length l

/-- Does the byte list start with the given pattern. -/
def startsWithRun : List Nat → List Nat → Bool
  | [], _ => true
  | _ :: _, [] => false
  | a :: as, b :: bs => a == b && startsWithRun as bs

/-- Does the pattern occur as a contiguous run inside the byte list.  This
models the Python substring test p in s at the byte level; for an ASCII
pattern inside valid UTF-8 text the two coincide because UTF-8 is
self-synchronizing. -/
def hasRun (pat : List Nat) : List Nat → Bool
  | [] => pat.isEmpty
  | b :: t => startsWithRun pat (b :: t) || hasRun pat t

/-- Is the second byte of a multi-byte UTF-8 sequence in range 80..BF. -/
def utf8Cont (c : Nat) : Bool := 0x80 ≤ c && c ≤ 0xBF

/-- Strict UTF-8 validity as enforced by the Python str decoder: rejects
invalid start bytes, truncated sequences, overlong encodings, surrogates and
code points above 10FFFF. -/
def utf8Valid : List Nat → Bool
  | [] => true
  | b :: rest =>
    if b ≤ 0x7F then utf8Valid rest
    else if 0xC2 ≤ b && b ≤ 0xDF then
      match rest with
      | c :: r => utf8Cont c && utf8Valid r
      | [] => false
    else if b == 0xE0 then
      match rest with
      | c1 :: c2 :: r => (0xA0 ≤ c1 && c1 ≤ 0xBF) && utf8Cont c2 && utf8Valid r
      | _ => false
    else if (0xE1 ≤ b && b ≤ 0xEC) || (0xEE ≤ b && b ≤ 0xEF) then
      match rest with
      | c1 :: c2 :: r => utf8Cont c1 && utf8Cont c2 && utf8Valid r
      | _ => false
    else if b == 0xED then
      match rest with
      | c1 :: c2 :: r => (0x80 ≤ c1 && c1 ≤ 0x9F) && utf8Cont c2 && utf8Valid r
      | _ => false
    else if b == 0xF0 then
      match rest with
      | c1 :: c2 :: c3 :: r =>
        (0x90 ≤ c1 && c1 ≤ 0xBF) && utf8Cont c2 && utf8Cont c3 && utf8Valid r
      | _ => false
    else if 0xF1 ≤ b && b ≤ 0xF3 then
      match rest with
      | c1 :: c2 :: c3 :: r => utf8Cont c1 && utf8Cont c2 && utf8Cont c3 && utf8Valid r
      | _ => false
    else if b == 0xF4 then
      match rest with
      | c1 :: c2 :: c3 :: r =>
        (0x80 ≤ c1 && c1 ≤ 0x8F) && utf8Cont c2 && utf8Cont c3 && utf8Valid r
      | _ => false
    else false

/-- The 4-byte little-endian signed integer stored at a position of the byte
stream (np.fromfile(file, INT, 1)). -/
def word4At (bs : List Nat) (pos : Nat) : Int :=
  leSigned ((bs.drop pos).take 4)

/-- The data span of the Fortran record starting at pos: the count read at
pos, then that many raw bytes (np.fromfile performs a short read when fewer
bytes remain, and reads everything that remains for a negative count). -/
def recordData (bs : List Nat) (pos : Nat) : List Nat :=
  if word4At bs pos < 0 then bs.drop (pos + 4)
  else (bs.drop (pos + 4)).take (word4At bs pos).toNat

/-- Position of the trailing length marker of the record starting at pos. -/
def recordBodyEnd (bs : List Nat) (pos : Nat) : Nat :=
  pos + 4 + (recordData bs pos).length

/-- read_fortran_record (rssa_parser.py lines 43-49): reads the 4-byte count,
the data bytes and the 4-byte trailing count; fails with formatError when the
two counts differ.  Returns the data and the stream position just past the
trailing marker. -/
def readFortranRecord (bs : List Nat) (pos : Nat) : Except Err (List Nat × Nat) :=
  if pos + 4 ≤ bs.length then
    let c1 := word4At bs pos
    let data := recordData bs pos
    let pos2 := recordBodyEnd bs pos
    if pos2 + 4 ≤ bs.length then
      if c1 = word4At bs pos2 then .ok (data, pos2 + 4)
      else .error .formatError
    else .error .eofError
  else .error .eofError

/-- The bytes of the generator signature d1suned as UTF-8/ASCII. -/
def sigD1suned : List Nat := [100, 49, 115, 117, 110, 101, 100]

/-- First header record handling (rssa_parser.py lines 54-63): decode the
record as UTF-8 text, check it mentions the d1suned signature, and decode the
trailing 4 bytes as the last-dump integer (np.frombuffer(data[-4:], INT),
which only fails when the record holds 1 to 3 bytes); any other generator
signature raises NotImplementedError. -/
def parseIdRecord (d : List Nat) : Except Err Unit :=
  if utf8Valid d then
    if hasRun sigD1suned d then
      if (d.drop (d.length - 4)).length % 4 = 0 then .ok ()
      else .error .bufferError
    else .error .unsupportedFormat
  else .error .decodeError

/-- np.frombuffer(data, INT, 1, off): a single 4-byte signed integer at a
byte offset of a record. -/
def readIntAt (d : List Nat) (off : Nat) : Except Err Int :=
  if off + 4 ≤ d.length then .ok (leSigned ((d.drop off).take 4))
  else .error .bufferError

/-- np.frombuffer(data, LONG, 1, off): a single 8-byte signed integer at a
byte offset of a record. -/
def readLongAt (d : List Nat) (off : Nat) : Except Err Int :=
  if off + 8 ≤ d.length then .ok (leSigned ((d.drop off).take 8))
  else .error .bufferError

/-- np.frombuffer(data, INT, 3): three 4-byte signed integers from the start
of a record. -/
def readInt3At (d : List Nat) : Except Err (Int × Int × Int) :=
  if 12 ≤ d.length then
    .ok (leSigned (d.take 4), leSigned ((d.drop 4).take 4), leSigned ((d.drop 8).take 4))
  else .error .bufferError

/-- np.frombuffer(data, INT, offset=off) with the default count: all 4-byte
signed integers from the offset to the end of the record; numpy requires the
offset not to exceed the buffer and the remainder to be a multiple of 4. -/
def readAllIntsFrom (d : List Nat) (off : Nat) : Except Err (List Int) :=
  if off ≤ d.length ∧ (d.length - off) % 4 = 0 then
    .ok ((chunks 4 (d.drop off)).map leSigned)
  else .error .bufferError

/-- One surface descriptor of the header (rssa_parser.py lines 86-94). -/
structure Surface where
  id : Int
  info : Int
  type : Int
  num_params : Int
  params : List Int
deriving DecidableEq, Repr

/-- The info field of a surface record (rssa_parser.py lines 87-90): read at
offset 4 only when kjaq = 1, else the sentinel -1. -/
def readInfoAt (kjaq : Int) (d : List Nat) : Except Err Int :=
  if kjaq = 1 then readIntAt d 4 else .ok (-1)

/-- Decoding of one surface record (rssa_parser.py lines 86-93): id at offset
0, macrobody info at offset 4 only when kjaq = 1 (else the sentinel -1), type
at offset 8, num_params at offset 12, and all remaining integers from offset
16 as the parameter list. -/
def parseSurface (kjaq : Int) (d : List Nat) : Except Err Surface := do
  let i ← readIntAt d 0
  let info ← readInfoAt kjaq d
  let ty ← readIntAt d 8
  let np ← readIntAt d 12
  let ps ← readAllIntsFrom d 16
  .ok ⟨i, info, ty, np, ps⟩

/-- The loop over the njsw surface records (rssa_parser.py lines 83-94). -/
def readSurfaces (bs : List Nat) (kjaq : Int) : Nat → Nat → Except Err (List Surface × Nat)
  | 0, pos => .ok ([], pos)
  | n + 1, pos => do
    let (d, p1) ← readFortranRecord bs pos
    let s ← parseSurface kjaq d
    let (rest, pf) ← readSurfaces bs kjaq n p1
    .ok (s :: rest, pf)

/-- nrcd validation (rssa_parser.py lines 72-73): the per-track value count
must be 11, otherwise NotImplementedError. -/
def checkNrcd (n : Int) : Except Err Unit :=
  if n = 11 then .ok () else .error .unsupportedFormat

/-- Third header record (rssa_parser.py lines 76-80): only read when np1 is
negative, in which case it holds niwr, mipts and kjaq; a non-negative np1
raises NotImplementedError. -/
def readFlagsRecord (bs : List Nat) (pos : Nat) (np1 : Int) :
    Except Err ((Int × Int × Int) × Nat) :=
  if np1 < 0 then do
    let (d, p1) ← readFortranRecord bs pos
    let t ← readInt3At d
    .ok (t, p1)
  else .error .unsupportedFormat

/-- Extension records loop (rssa_parser.py lines 98-100): when niwr is
positive, a record is read and NotImplementedError is raised; otherwise the
loop body never runs. -/
def readExtensions (bs : List Nat) (pos : Nat) (niwr : Int) : Except Err Nat :=
  if niwr ≤ 0 then .ok pos
  else do
    let _ ← readFortranRecord bs pos
    .error .unsupportedFormat

/-- The header parameters of an RSSA file (rssa_parser.py lines 106-114). -/
structure Header where
  np1 : Int
  nrss : Int
  nrcd : Int
  njsw : Int
  niss : Int
  niwr : Int
  mipts : Int
  kjaq : Int
  surfaces : List Surface
deriving DecidableEq, Repr

/-- read_header (rssa_parser.py lines 52-115): identification record, count
record with np1, nrss, nrcd, njsw, niss at fixed offsets, the nrcd = 11
check, the flags record guarded by np1 < 0, njsw surface records, the
extension records, and one discarded summary record.  Returns the header and
the stream position after the summary record. -/
def readHeader (bs : List Nat) : Except Err (Header × Nat) := do
  let (d1, p1) ← readFortranRecord bs 0
  let _ ← parseIdRecord d1
  let (d2, p2) ← readFortranRecord bs p1
  let np1 ← readLongAt d2 0
  let nrss ← readLongAt d2 8
  let nrcd ← readIntAt d2 16
  let njsw ← readIntAt d2 20
  let niss ← readLongAt d2 24
  let _ ← checkNrcd nrcd
  let ((niwr, mipts, kjaq), p3) ← readFlagsRecord bs p2 np1
  let (surfaces, p4) ← readSurfaces bs kjaq njsw.toNat p3
  let p5 ← readExtensions bs p4 niwr
  let (_summary, p6) ← readFortranRecord bs p5
  .ok (⟨np1, nrss, nrcd, njsw, niss, niwr, mipts, kjaq, surfaces⟩, p6)

/-- read_tracks (rssa_parser.py lines 118-132): the remaining bytes are
reshaped into 96-byte records (a numpy ValueError when the length is not a
multiple of 96), the 4-byte leading and trailing markers of each record are
stripped without validation, and the 88 payload bytes become 11 8-byte
values; each value is kept as its raw little-endian 64-bit pattern since
read_tracks only reinterprets bytes. -/
def readTracks (tl : List Nat) : Except Err (List (List Nat)) :=
  if tl.length % 96 = 0 then
    .ok ((chunks 96 tl).map (fun c => (chunks 8 ((c.drop 4).take 88)).map leNat))
  else .error .formatError

/-- read_rssa (rssa_parser.py lines 135-142): the header followed by the
track table decoded from the remaining bytes. -/
def readRssa (bs : List Nat) : Except Err (Header × List (List Nat)) := do
  let (h, pos) ← readHeader bs
  let t ← readTracks (bs.drop pos)
  .ok (h, t)

/-- 4-byte little-endian encoding of a small natural number. -/
def le4 (n : Nat) : List Nat :=
  [n % 256, n / 256 % 256, n / 256 ^ 2 % 256, n / 256 ^ 3 % 256]

/-- 8-byte little-endian encoding of a small natural number. -/
def le8 (n : Nat) : List Nat :=
  le4 n ++ [n / 256 ^ 4 % 256, n / 256 ^ 5 % 256, n / 256 ^ 6 % 256, n / 256 ^ 7 % 256]

/-- A payload wrapped as a Fortran record with matching length markers. -/
def fRec (p : List Nat) : List Nat := le4 p.length ++ p ++ le4 p.length

/-- A concrete well-formed RSSA byte stream: d1suned identification record,
count record with np1 = -2, nrss = 2, nrcd = 11, njsw = 1, niss = 1, flags
record with niwr = 0, mipts = 1, kjaq = 0, one surface record whose
num_params field says 5 while only two parameter integers are stored, an
empty summary record, and a single 96-byte track record even though nrss
claims two tracks. -/
def demoBytes : List Nat :=
  fRec (sigD1suned ++ le4 0) ++
  fRec ([254, 255, 255, 255, 255, 255, 255, 255] ++ le8 2 ++ le4 11 ++ le4 1 ++ le8 1) ++
  fRec (le4 0 ++ le4 1 ++ le4 0) ++
  fRec (le4 4 ++ le4 0 ++ le4 1 ++ le4 5 ++ le4 7 ++ le4 9) ++
  fRec [] ++
  (le4 88 ++ List.replicate 88 0 ++ le4 88)

/-- The header decoded from demoBytes. -/
def demoHeader : Header :=
  ⟨-2, 2, 11, 1, 1, 0, 1, 0, [⟨4, -1, 1, 5, [7, 9]⟩]⟩

/-- The track table decoded from demoBytes: one row of 11 zero words. -/
def demoTracks : List (List Nat) := [List.replicate 11 0]

deriving instance DecidableEq for Except

/-!
The track-table views (rssa.py) and the cylindrical binner (plotter.py) are
embedded over exact rationals: the Python code computes with 64-bit floats,
so exact-ℚ results correspond to the float results up to floating-point
tolerance, which is how the specification phrases its numeric properties.
The two irrational primitives, np.angle(x + iy) = atan2(y, x) and
np.linalg.norm([x, y]) = sqrt(x^2 + y^2), are abstracted as function
parameters angle and norm2 of the embedded operations; every theorem below
holds for all instantiations of these parameters, as does 1/sqrt(n) for the
error grid (parameter sqrtQ).
-/

/-- Column j of the track table, tracks[:, j]. -/
def colAt (j : Nat) (tracks : List (List ℚ)) : List ℚ :=
  tracks.map (fun r => r.getD j 0)

/-- The in-memory RSSA instance as the binner sees it: the track table and
the np1 header parameter (the only header field the binner reads). -/
structure RSSAq where
  tracks : List (List ℚ)
  np1 : Int
deriving DecidableEq

/-- np.where(p(l))[0]: the indices of the elements satisfying p, in
increasing order. -/
def whereIdx (p : ℚ → Bool) (l : List ℚ) : List Nat :=
  (List.range l.length).filter (fun i => p (l.getD i 0))

/-- mask_neutron_tracks (rssa.py lines 92-95): indices whose packed flag has
absolute value below 9e8. -/
def maskNeutron (r : RSSAq) : List Nat :=
  whereIdx (fun b => decide (|b| < 900000000)) (colAt 1 r.tracks)

/-- mask_photon_tracks (rssa.py lines 98-101): indices whose packed flag has
absolute value at least 9e8. -/
def maskPhoton (r : RSSAq) : List Nat :=
  whereIdx (fun b => decide (900000000 ≤ |b|)) (colAt 1 r.tracks)

/-- get_particle_mask (rssa.py lines 103-109): the neutron mask for n, the
photon mask for p, and a ValueError for anything else. -/
def getParticleMask (r : RSSAq) (particle : String) : Except Err (List Nat) :=
  if particle = "n" then .ok (maskNeutron r)
  else if particle = "p" then .ok (maskPhoton r)
  else .error .invalidArgument

/-- np.intersect1d on two sorted duplicate-free index arrays, which is the
only way the code applies it to non-None arguments. -/
def npIntersect (a b : List Nat) : List Nat :=
  a.filter (fun i => b.contains i)

/-- np.intersect1d where the first argument may be Python None, as happens
in plot_current_cyl when only x_range is given: numpy then sorts a mixed
object array and Python raises a TypeError comparing None with an integer. -/
def npIntersectOpt (m : Option (List Nat)) (b : List Nat) : Except Err (List Nat) :=
  match m with
  | none => .error .typeError
  | some a => .ok (npIntersect a b)

/-- The selected row set of generate_figures_current_cyl (plotter.py lines
78-80): the particle mask, intersected with the caller mask when given. -/
def pmOf (r : RSSAq) (particle : String) (mask : Option (List Nat)) :
    Except Err (List Nat) := do
  let m ← getParticleMask r particle
  match mask with
  | none => pure m
  | some mk => pure (npIntersect m mk)

/-- Fancy indexing l[mask]; the masks built by this code are always within
range, where numpy indexing and this total model agree. -/
def selectQ (l : List ℚ) (mask : List Nat) : List ℚ :=
  mask.map (fun i => l.getD i 0)

/-- Reduction min of a numpy array; empty arrays raise a ValueError. -/
def minE : List ℚ → Except Err ℚ
  | [] => .error .emptyReduce
  | a :: t => .ok (t.foldl min a)

/-- Reduction max of a numpy array; empty arrays raise a ValueError. -/
def maxE : List ℚ → Except Err ℚ
  | [] => .error .emptyReduce
  | a :: t => .ok (t.foldl max a)

/-- np.linspace(a, b, num): num evenly spaced points from a to b. -/
def npLinspace (a b : ℚ) (num : Nat) : List ℚ :=
  match num with
  | 0 => []
  | 1 => [a]
  | n + 2 => (List.range (n + 2)).map (fun i : Nat => a + (i : ℚ) * (b - a) / ((n : ℚ) + 1))

/-- np.linspace with a possibly negative sample count, which numpy rejects
with a ValueError. -/
def npLinspaceE (a b : ℚ) (num : Int) : Except Err (List ℚ) :=
  if num < 0 then .error .valueError else .ok (npLinspace a b num.toNat)

/-- calculate_grid_axes_cyl (plotter.py lines 55-69): the default mask is
np.where of the x column, the z and angle extrema are taken over the masked
rows, and the two axes are linspaces with one more point than the bin
count. -/
def calculateGridAxesCyl (angle : ℚ → ℚ → ℚ) (r : RSSAq) (z_int theta_int : Int)
    (mask : Option (List Nat)) : Except Err (List ℚ × List ℚ) := do
  let m := match mask with
    | none => whereIdx (fun x => decide (x ≠ 0)) (colAt 5 r.tracks)
    | some m => m
  let zmin ← minE (selectQ (colAt 7 r.tracks) m)
  let zmax ← maxE (selectQ (colAt 7 r.tracks) m)
  let thetas := List.zipWith angle (selectQ (colAt 5 r.tracks) m) (selectQ (colAt 6 r.tracks) m)
  let tmin ← minE thetas
  let tmax ← maxE thetas
  let zax ← npLinspaceE zmin zmax (z_int + 1)
  let tax ← npLinspaceE tmin tmax (theta_int + 1)
  .ok (zax, tax)

/-- Python int() truncation toward zero, as performed by astype(int). -/
def truncQ (q : ℚ) : Int := q.num.tdiv q.den

/-- closest (plotter.py lines 36-47): linear index mapping against the first
two axis points, truncated to int, with indices equal to len(axis) - 1
clamped down to len(axis) - 2; reading axis[1] of a shorter axis raises an
IndexError. -/
def closestE (axis : List ℚ) (values : List ℚ) : Except Err (List Int) :=
  match axis with
  | a0 :: a1 :: _ =>
    .ok (values.map (fun v =>
      let i := truncQ ((v - a0) / (a1 - a0))
      if i = (axis.length : Int) - 1 then (axis.length : Int) - 2 else i))
  | _ => .error .indexError

/-- np.zeros((zi, ti)): a zero grid; negative dimensions raise ValueError. -/
def zerosGrid (zi ti : Int) : Except Err (List (List ℚ)) :=
  if zi < 0 ∨ ti < 0 then .error .valueError
  else .ok (List.replicate zi.toNat (List.replicate ti.toNat 0))

/-- numpy index semantics for one axis: in-range indices unchanged, negative
indices wrap by the axis length, anything else raises IndexError. -/
def wrapIdx (i : Int) (n : Nat) : Except Err Nat :=
  if 0 ≤ i ∧ i < (n : Int) then .ok i.toNat
  else if -(n : Int) ≤ i ∧ i < 0 then .ok (i + n).toNat
  else .error .indexError

/-- One accumulation of np.add.at: add w at position (i, j) of the grid. -/
def gridAddOne (g : List (List ℚ)) (i j : Int) (w : ℚ) : Except Err (List (List ℚ)) := do
  let iN ← wrapIdx i g.length
  let row := g.getD iN []
  let jN ← wrapIdx j row.length
  .ok (g.set iN (row.set jN (row.getD jN 0 + w)))

/-- np.add.at(grid, (is, js), ws): unbuffered additive accumulation, one
entry at a time; repeated indices accumulate rather than overwrite. -/
def addAt (g : List (List ℚ)) : List ((Int × Int) × ℚ) → Except Err (List (List ℚ))
  | [] => .ok g
  | ((i, j), w) :: rest => do
    let g1 ← gridAddOne g i j w
    addAt g1 rest

/-- The sum of all cells of a grid. -/
def gridSum (g : List (List ℚ)) : ℚ :=
  (g.map (fun row => row.sum)).sum

/-- The aggregation outputs of generate_figures_current_cyl that downstream
consumers depend on (spec section 4.5 step 7): the normalized values grid,
the relative-error grid, the plotting extent, the cell area and the printed
resolution; the matplotlib figure construction itself is out of scope. -/
structure BinnerOut where
  values : List (List ℚ)
  errors : List (List ℚ)
  extent : List ℚ
  area : ℚ
  resolution : ℚ × ℚ
deriving DecidableEq

/-- generate_figures_current_cyl (plotter.py lines 71-105 and 139-141): row
selection, axis computation over the selected rows, index computation via
closest, additive accumulation of weights and counts, and normalization by
cell area, np1 magnitude and source intensity; value_range only affects the
out-of-scope color scale of the renderer. -/
def generateFiguresCurrentCyl (norm2 angle : ℚ → ℚ → ℚ) (sqrtQ : ℚ → ℚ) (r : RSSAq)
    (particle : String) (z_int theta_int : Int) (source_intensity : ℚ)
    (value_range : Option (ℚ × ℚ)) (mask : Option (List Nat)) :
    Except Err BinnerOut := do
  let pm ← pmOf r particle mask
  let (zax, tax) ← calculateGridAxesCyl angle r z_int theta_int (some pm)
  let grid0 ← zerosGrid z_int theta_int
  let egrid0 ← zerosGrid z_int theta_int
  let zIdx ← closestE zax (selectQ (colAt 7 r.tracks) pm)
  let thetas := List.zipWith angle (selectQ (colAt 5 r.tracks) pm) (selectQ (colAt 6 r.tracks) pm)
  let tIdx ← closestE tax thetas
  let wsel := selectQ (colAt 2 r.tracks) pm
  let grid1 ← addAt grid0 ((zIdx.zip tIdx).zip wsel)
  let egrid1 ← addAt egrid0 ((zIdx.zip tIdx).zip (List.replicate zIdx.length 1))
  let radius := norm2 ((colAt 5 r.tracks).getD 0 0) ((colAt 6 r.tracks).getD 0 0)
  let extent := [radius * tax.getD 0 0, radius * tax.getLastD 0, zax.getD 0 0, zax.getLastD 0]
  let area := |radius * (tax.getD 1 0 - tax.getD 0 0) * (zax.getD 1 0 - zax.getD 0 0)|
  let values := grid1.map (fun row => row.map (fun v =>
    v / area / |(r.np1 : ℚ)| * source_intensity))
  let errors := (egrid1.map (fun row => row.map (fun c => if c = 0 then 1 else c))).map
    (fun row => row.map (fun c => 1 / sqrtQ c))
  let _ := value_range
  .ok ⟨values, errors, extent, area,
    (radius * (tax.getD 1 0 - tax.getD 0 0), zax.getD 1 0 - zax.getD 0 0)⟩

/-- Lines 162-164 of plotter.py as one block: the perimeter coordinate of
every track of the full table, radius times atan2(y, x), with the radius
taken from row 0 of the full table. -/
def perimeterValues (norm2 angle : ℚ → ℚ → ℚ) (tracks : List (List ℚ)) : List ℚ :=
  (List.zipWith angle (colAt 5 tracks) (colAt 6 tracks)).map
    (fun t => norm2 ((colAt 5 tracks).getD 0 0) ((colAt 6 tracks).getD 0 0) * t)

/-- plot_current_cyl (plotter.py lines 145-176): optional axial pre-filter,
optional circumferential pre-filter (which intersects with the mask variable
even when it is still None), then the shared figure generation. -/
def plotCurrentCyl (norm2 angle : ℚ → ℚ → ℚ) (sqrtQ : ℚ → ℚ) (r : RSSAq)
    (particle : String) (z_int theta_int : Int) (source_intensity : ℚ)
    (value_range : Option (ℚ × ℚ)) (x_range z_range : Option (ℚ × ℚ)) :
    Except Err BinnerOut := do
  let mask0 : Option (List Nat) :=
    match z_range with
    | none => none
    | some (z0, z1) =>
      some (npIntersect (whereIdx (fun z => decide (z0 < z)) (colAt 7 r.tracks))
                        (whereIdx (fun z => decide (z < z1)) (colAt 7 r.tracks)))
  let maskF ← match x_range with
    | none => pure mask0
    | some (x0, x1) => do
      let xvals := perimeterValues norm2 angle r.tracks
      let m1 := whereIdx (fun v => decide (x0 < v)) xvals
      let m2 := whereIdx (fun v => decide (v < x1)) xvals
      let ma ← npIntersectOpt mask0 m1
      let mb ← npIntersectOpt (some ma) m2
      pure (some mb)
  generateFiguresCurrentCyl norm2 angle sqrtQ r particle z_int theta_int
    source_intensity value_range maskF

/-- The cylinder radius as computed from row 0 of the full track table,
np.linalg.norm([x[0], y[0]]), the common formula of plotter.py lines 98 and
163 and rssa.py line 78. -/
def cylinderRadius (norm2 : ℚ → ℚ → ℚ) (tracks : List (List ℚ)) : ℚ :=
  norm2 ((colAt 5 tracks).getD 0 0) ((colAt 6 tracks).getD 0 0)

/-- The radius reported in the summary text of get_info (rssa.py line 78). -/
def getInfoRadius (norm2 : ℚ → ℚ → ℚ) (tracks : List (List ℚ)) : ℚ :=
  norm2 ((colAt 5 tracks).getD 0 0) ((colAt 6 tracks).getD 0 0)

/-- Placeholder angle function for concrete runs: any ℚ-valued function is
admissible for the abstract atan2 parameter. -/
def angleW (x y : ℚ) : ℚ := y + 0 * x

/-- Placeholder norm function for concrete runs. -/
def norm2W (x y : ℚ) : ℚ := x + y

/-- Placeholder square-root function for concrete runs. -/
def sqrtW (c : ℚ) : ℚ := c

/-- A concrete two-track table: both rows are neutrons (flag 8), with
weights 2 and 3, positions (1, 0, 0) and (0, 1, 10), and np1 = -2. -/
def demoQ : RSSAq :=
  ⟨[[0, 8, 2, 0, 0, 1, 0, 0, 0, 0, 0], [0, 8, 3, 0, 0, 0, 1, 10, 0, 0, 0]], -2⟩

/-- A table whose only row is a photon (flag 9e8), so that the neutron
selection is empty. -/
def photonQ : RSSAq :=
  ⟨[[0, 900000000, 1, 0, 0, 1, 0, 0, 0, 0, 0]], -2⟩

/-- The binner output for demoQ with one z bin, one theta bin and source
intensity 1 under the placeholder angle and norm functions. -/
def demoOut : BinnerOut :=
  ⟨[[1/4]], [[1/2]], [0, 1, 0, 10], 10, (1, 10)⟩

/-! General inversion lemmas for Except-valued computations and for the
chunking function. -/

theorem exceptBind_ok {α β : Type} (x : Except Err α) (f : α → Except Err β) (b : β) :
    (x >>= f) = .ok b ↔ ∃ a, x = .ok a ∧ f a = .ok b := by
  cases x <;> simp [Bind.bind, Except.bind]

theorem exceptBind_error {α β : Type} (x : Except Err α) (f : α → Except Err β) (e : Err) :
    (x >>= f) = .error e ↔ x = .error e ∨ ∃ a, x = .ok a ∧ f a = .error e := by
  cases x <;> simp [Bind.bind, Except.bind]

theorem chunksAux_nil (k fuel : Nat) : chunksAux k fuel [] = [] := by
  cases fuel <;> rfl

theorem chunksAux_spec (k : Nat) (hk : 0 < k) :
    ∀ (m fuel : Nat) (l : List Nat), l.length = k * m → l.length ≤ fuel →
      (chunksAux k fuel l).length = m ∧ ∀ c ∈ chunksAux k fuel l, c.length = k := by
  intro m
  induction m with
  | zero =>
    intro fuel l hl _
    have hnil : l = [] := List.eq_nil_of_length_eq_zero (by omega)
    subst hnil
    simp [chunksAux_nil]
  | succ m ih =>
    intro fuel l hl hf
    rw [Nat.mul_succ] at hl
    have hpos : 0 < l.length := by omega
    obtain ⟨a, t, rfl⟩ : ∃ a t, l = a :: t := by
      cases l with
      | nil => simp at hpos
      | cons a t => exact ⟨a, t, rfl⟩
    obtain ⟨f, rfl⟩ : ∃ f, fuel = f + 1 := by
      cases fuel with
      | zero => simp at hf
      | succ f => exact ⟨f, rfl⟩
    have hstep : chunksAux k (f + 1) (a :: t) =
        (a :: t).take k :: chunksAux k f ((a :: t).drop k) := rfl
    have hdl : ((a :: t).drop k).length = k * m := by
      rw [List.length_drop]; omega
    have hfl : ((a :: t).drop k).length ≤ f := by
      rw [List.length_drop]
      simp only [List.length_cons] at hf hl ⊢
      omega
    obtain ⟨ih1, ih2⟩ := ih f _ hdl hfl
    rw [hstep]
    refine ⟨by simp [ih1], ?_⟩
    intro c hc
    rcases List.mem_cons.mp hc with hc | hc
    · subst hc
      rw [List.length_take]
      simp only [List.length_cons] at hl ⊢
      omega
    · exact ih2 c hc

theorem chunks_spec (k m : Nat) (hk : 0 < k) (l : List Nat) (hl : l.length = k * m) :
    (chunks k l).length = m ∧ ∀ c ∈ chunks k l, c.length = k :=
  chunksAux_spec k hk m l.length l hl le_rfl

/-! Inversion lemmas for the byte-level reader. -/

theorem readTracks_ok_inv (tl : List Nat) (t : List (List Nat))
    (h : readTracks tl = .ok t) :
    tl.length % 96 = 0 ∧ (∀ r ∈ t, r.length = 11) ∧ t.length * 96 = tl.length := by
  unfold readTracks at h
  split at h
  case isTrue h96 =>
    injection h with h
    subst h
    obtain ⟨m, hm⟩ := Nat.dvd_of_mod_eq_zero h96
    obtain ⟨hlen, hmem⟩ := chunks_spec 96 m (by norm_num) tl hm
    refine ⟨h96, ?_, ?_⟩
    · intro r hr
      rw [List.mem_map] at hr
      obtain ⟨c, hc, rfl⟩ := hr
      have hc96 := hmem c hc
      have h88 : ((c.drop 4).take 88).length = 8 * 11 := by
        rw [List.length_take, List.length_drop, hc96]
        omega
      obtain ⟨h11, _⟩ := chunks_spec 8 11 (by norm_num) _ h88
      rw [List.length_map, h11]
    · rw [List.length_map, hlen]; omega
  case isFalse => exact absurd h (by simp)

theorem readRssa_ok_inv (bs : List Nat) (h : Header) (t : List (List Nat))
    (hok : readRssa bs = .ok (h, t)) :
    ∃ pos, readHeader bs = .ok (h, pos) ∧ readTracks (bs.drop pos) = .ok t := by
  unfold readRssa at hok
  rw [exceptBind_ok] at hok
  obtain ⟨⟨h0, pos⟩, h1, hok⟩ := hok
  rw [exceptBind_ok] at hok
  obtain ⟨t0, h2, hok⟩ := hok
  simp only [Except.ok.injEq, Prod.mk.injEq] at hok
  obtain ⟨rfl, rfl⟩ := hok
  exact ⟨pos, h1, h2⟩

theorem parseSurface_ok_inv (kjaq : Int) (d : List Nat) (s : Surface)
    (h : parseSurface kjaq d = .ok s) : 16 + 4 * s.params.length = d.length := by
  unfold parseSurface at h
  rw [exceptBind_ok] at h; obtain ⟨i, hi, h⟩ := h
  rw [exceptBind_ok] at h; obtain ⟨info, hinfo, h⟩ := h
  rw [exceptBind_ok] at h; obtain ⟨ty, hty, h⟩ := h
  rw [exceptBind_ok] at h; obtain ⟨np, hnp, h⟩ := h
  rw [exceptBind_ok] at h; obtain ⟨ps, hps, h⟩ := h
  simp only [Except.ok.injEq] at h
  subst h
  unfold readAllIntsFrom at hps
  split at hps
  case isTrue hcond =>
    injection hps with hps
    obtain ⟨hle, hmod⟩ := hcond
    obtain ⟨m, hm⟩ := Nat.dvd_of_mod_eq_zero hmod
    have h1 : (d.drop 16).length = 4 * m := by rw [List.length_drop]; omega
    obtain ⟨hlen, -⟩ := chunks_spec 4 m (by norm_num) _ h1
    show 16 + 4 * ps.length = d.length
    rw [← hps, List.length_map, hlen]
    omega
  case isFalse => exact absurd hps (by simp)

theorem readSurfaces_ok_length (bs : List Nat) (kjaq : Int) :
    ∀ (n pos : Nat) (ss : List Surface) (pf : Nat),
      readSurfaces bs kjaq n pos = .ok (ss, pf) → ss.length = n := by
  intro n
  induction n with
  | zero =>
    intro pos ss pf h
    unfold readSurfaces at h
    simp only [Except.ok.injEq, Prod.mk.injEq] at h
    obtain ⟨h1, -⟩ := h
    subst h1
    rfl
  | succ n ih =>
    intro pos ss pf h
    unfold readSurfaces at h
    rw [exceptBind_ok] at h; obtain ⟨⟨d, p1⟩, h1, h⟩ := h
    rw [exceptBind_ok] at h; obtain ⟨s, hs, h⟩ := h
    rw [exceptBind_ok] at h; obtain ⟨⟨rest, pf2⟩, hrest, h⟩ := h
    simp only [Except.ok.injEq, Prod.mk.injEq] at h
    obtain ⟨rfl, rfl⟩ := h
    simp [ih _ _ _ hrest]

theorem readHeader_ok_inv (bs : List Nat) (h : Header) (pos : Nat)
    (hok : readHeader bs = .ok (h, pos)) :
    ∃ d1 p1 d2 p2 p3 p4 p5 sm,
      readFortranRecord bs 0 = .ok (d1, p1) ∧
      parseIdRecord d1 = .ok () ∧
      readFortranRecord bs p1 = .ok (d2, p2) ∧
      readLongAt d2 0 = .ok h.np1 ∧
      readLongAt d2 8 = .ok h.nrss ∧
      readIntAt d2 16 = .ok h.nrcd ∧
      readIntAt d2 20 = .ok h.njsw ∧
      readLongAt d2 24 = .ok h.niss ∧
      checkNrcd h.nrcd = .ok () ∧
      readFlagsRecord bs p2 h.np1 = .ok ((h.niwr, h.mipts, h.kjaq), p3) ∧
      readSurfaces bs h.kjaq h.njsw.toNat p3 = .ok (h.surfaces, p4) ∧
      readExtensions bs p4 h.niwr = .ok p5 ∧
      readFortranRecord bs p5 = .ok (sm, pos) := by
  unfold readHeader at hok
  rw [exceptBind_ok] at hok; obtain ⟨⟨d1, p1⟩, h1, hok⟩ := hok
  rw [exceptBind_ok] at hok; obtain ⟨u1, h2, hok⟩ := hok
  rw [exceptBind_ok] at hok; obtain ⟨⟨d2, p2⟩, h3, hok⟩ := hok
  rw [exceptBind_ok] at hok; obtain ⟨np1, h4, hok⟩ := hok
  rw [exceptBind_ok] at hok; obtain ⟨nrss, h5, hok⟩ := hok
  rw [exceptBind_ok] at hok; obtain ⟨nrcd, h6, hok⟩ := hok
  rw [exceptBind_ok] at hok; obtain ⟨njsw, h7, hok⟩ := hok
  rw [exceptBind_ok] at hok; obtain ⟨niss, h8, hok⟩ := hok
  rw [exceptBind_ok] at hok; obtain ⟨u2, h9, hok⟩ := hok
  rw [exceptBind_ok] at hok; obtain ⟨⟨⟨niwr, mipts, kjaq⟩, p3⟩, h10, hok⟩ := hok
  rw [exceptBind_ok] at hok; obtain ⟨⟨surfaces, p4⟩, h11, hok⟩ := hok
  rw [exceptBind_ok] at hok; obtain ⟨p5, h12, hok⟩ := hok
  rw [exceptBind_ok] at hok; obtain ⟨⟨sm, p6⟩, h13, hok⟩ := hok
  simp only [Except.ok.injEq, Prod.mk.injEq] at hok
  obtain ⟨hh, hp⟩ := hok
  subst hh; subst hp
  cases u1; cases u2
  exact ⟨d1, p1, d2, p2, p3, p4, p5, sm, h1, h2, h3, h4, h5, h6, h7, h8, h9,
    h10, h11, h12, h13⟩

/-- C1: for every successfully loaded byte stream every decoded track row
has exactly 11 fields, and the row count is the post-header byte length
divided by 96 (so it equals nrss exactly when that tail length is
96 * nrss); read_tracks never compares its row count with nrss. -/
theorem c1_trackTable_shape (bs : List Nat) (h : Header) (t : List (List Nat))
    (hok : readRssa bs = .ok (h, t)) :
    (∀ r ∈ t, r.length = 11) ∧
    ∃ pos, readHeader bs = .ok (h, pos) ∧ t.length * 96 = (bs.drop pos).length ∧
      ((bs.drop pos).length = 96 * h.nrss.toNat → t.length = h.nrss.toNat) := by
  obtain ⟨pos, hh, ht⟩ := readRssa_ok_inv bs h t hok
  obtain ⟨-, hrows, hcount⟩ := readTracks_ok_inv _ _ ht
  exact ⟨hrows, pos, hh, hcount, fun he => by omega⟩

/-- C1 counterexample: demoBytes loads successfully, its header records
nrss = 2, yet the decoded track table has a single row, so the table shape
is not (nrss, 11). -/
theorem c1_trackTable_shape_cex :
    readRssa demoBytes = .ok (demoHeader, demoTracks) ∧
    demoHeader.nrss = 2 ∧ demoTracks.length = 1 ∧
    (demoTracks.length : Int) ≠ demoHeader.nrss := by decide

theorem c1_trackTable_shape_witness :
    (∀ r ∈ demoTracks, r.length = 11) ∧
    ∃ pos, readHeader demoBytes = .ok (demoHeader, pos) ∧
      demoTracks.length * 96 = (demoBytes.drop pos).length ∧
      ((demoBytes.drop pos).length = 96 * demoHeader.nrss.toNat →
        demoTracks.length = demoHeader.nrss.toNat) :=
  c1_trackTable_shape demoBytes demoHeader demoTracks (by decide)

/-- C4: the header decoder produces exactly njsw surface descriptors, but
the parameter list of each descriptor holds (record_length - 16) / 4
entries, delimited by the record length rather than by the num_params field;
the two agree exactly for records of length 16 + 4 * num_params. -/
theorem c4_surfaces_shape :
    (∀ bs kjaq n pos ss pf, readSurfaces bs kjaq n pos = .ok (ss, pf) → ss.length = n) ∧
    (∀ kjaq d s, parseSurface kjaq d = .ok s → 16 + 4 * s.params.length = d.length) ∧
    (∀ bs h pos, readHeader bs = .ok (h, pos) → h.surfaces.length = h.njsw.toNat) := by
  refine ⟨fun bs kjaq n pos ss pf h => readSurfaces_ok_length bs kjaq n pos ss pf h,
    fun kjaq d s h => parseSurface_ok_inv kjaq d s h, ?_⟩
  intro bs h pos hok
  obtain ⟨d1, p1, d2, p2, p3, p4, p5, sm, -, -, -, -, -, -, -, -, -, -, h11, -, -⟩ :=
    readHeader_ok_inv bs h pos hok
  exact readSurfaces_ok_length bs h.kjaq h.njsw.toNat p3 h.surfaces p4 h11

/-- C4 counterexample: the header of demoBytes decodes successfully and its
only surface descriptor declares num_params = 5 while its parameter list
holds just 2 entries. -/
theorem c4_surfaces_shape_cex :
    readHeader demoBytes = .ok (demoHeader, 119) ∧
    demoHeader.surfaces.map (fun s => (s.num_params, (s.params.length : Int))) = [(5, 2)] ∧
    ((5 : Int), (2 : Int)).1 ≠ ((5 : Int), (2 : Int)).2 := by decide

theorem c4_surfaces_shape_witness :
    demoHeader.surfaces.length = demoHeader.njsw.toNat :=
  c4_surfaces_shape.2.2 demoBytes demoHeader 119 (by decide)

/-! Helper lemmas for the error-taxonomy claims C6 and C7. -/

theorem readFortranRecord_formatError_iff (bs : List Nat) (pos : Nat) :
    readFortranRecord bs pos = .error .formatError ↔
      pos + 4 ≤ bs.length ∧ recordBodyEnd bs pos + 4 ≤ bs.length ∧
        word4At bs pos ≠ word4At bs (recordBodyEnd bs pos) := by
  simp only [readFortranRecord]
  split_ifs with h1 h2 h3 <;> simp_all

theorem readTracks_formatError_iff (tl : List Nat) :
    readTracks tl = .error .formatError ↔ tl.length % 96 ≠ 0 := by
  unfold readTracks
  split_ifs with h <;> simp_all

theorem readFortranRecord_error_cases (bs : List Nat) (pos : Nat) (e : Err)
    (h : readFortranRecord bs pos = .error e) :
    e = .formatError ∨ e = .eofError := by
  simp only [readFortranRecord] at h
  split_ifs at h <;> simp_all

theorem readTracks_error_cases (tl : List Nat) (e : Err)
    (h : readTracks tl = .error e) : e = .formatError := by
  unfold readTracks at h
  split_ifs at h
  simp_all

theorem readIntAt_error_cases (d : List Nat) (off : Nat) (e : Err)
    (h : readIntAt d off = .error e) : e = .bufferError := by
  unfold readIntAt at h
  split_ifs at h
  simp_all

theorem readLongAt_error_cases (d : List Nat) (off : Nat) (e : Err)
    (h : readLongAt d off = .error e) : e = .bufferError := by
  unfold readLongAt at h
  split_ifs at h
  simp_all

theorem readInt3At_error_cases (d : List Nat) (e : Err)
    (h : readInt3At d = .error e) : e = .bufferError := by
  unfold readInt3At at h
  split_ifs at h
  simp_all

theorem readAllIntsFrom_error_cases (d : List Nat) (off : Nat) (e : Err)
    (h : readAllIntsFrom d off = .error e) : e = .bufferError := by
  unfold readAllIntsFrom at h
  split_ifs at h
  simp_all

theorem readInfoAt_error_cases (kjaq : Int) (d : List Nat) (e : Err)
    (h : readInfoAt kjaq d = .error e) : e = .bufferError := by
  unfold readInfoAt at h
  split_ifs at h
  exact readIntAt_error_cases d 4 e h

theorem parseIdRecord_error_cases (d : List Nat) (e : Err)
    (h : parseIdRecord d = .error e) :
    e = .unsupportedFormat ∨ e = .decodeError ∨ e = .bufferError := by
  unfold parseIdRecord at h
  split_ifs at h <;> simp_all

theorem checkNrcd_error_cases (n : Int) (e : Err) (h : checkNrcd n = .error e) :
    e = .unsupportedFormat := by
  unfold checkNrcd at h
  split_ifs at h
  simp_all

theorem parseSurface_no_unsupported (kjaq : Int) (d : List Nat) :
    parseSurface kjaq d ≠ .error .unsupportedFormat := by
  intro h
  unfold parseSurface at h
  rw [exceptBind_error] at h
  rcases h with h | ⟨i, -, h⟩
  · exact absurd (readIntAt_error_cases d 0 _ h) (by simp)
  rw [exceptBind_error] at h
  rcases h with h | ⟨info, -, h⟩
  · exact absurd (readInfoAt_error_cases kjaq d _ h) (by simp)
  rw [exceptBind_error] at h
  rcases h with h | ⟨ty, -, h⟩
  · exact absurd (readIntAt_error_cases d 8 _ h) (by simp)
  rw [exceptBind_error] at h
  rcases h with h | ⟨np, -, h⟩
  · exact absurd (readIntAt_error_cases d 12 _ h) (by simp)
  rw [exceptBind_error] at h
  rcases h with h | ⟨ps, -, h⟩
  · exact absurd (readAllIntsFrom_error_cases d 16 _ h) (by simp)
  · simp at h

theorem readFortranRecord_no_unsupported (bs : List Nat) (pos : Nat) :
    readFortranRecord bs pos ≠ .error .unsupportedFormat := by
  intro h
  exact absurd (readFortranRecord_error_cases bs pos _ h) (by simp)

theorem readSurfaces_no_unsupported (bs : List Nat) (kjaq : Int) :
    ∀ (n pos : Nat), readSurfaces bs kjaq n pos ≠ .error .unsupportedFormat := by
  intro n
  induction n with
  | zero => intro pos h; simp [readSurfaces] at h
  | succ n ih =>
    intro pos h
    unfold readSurfaces at h
    rw [exceptBind_error] at h
    rcases h with h | ⟨⟨d, p1⟩, -, h⟩
    · exact readFortranRecord_no_unsupported bs pos h
    rw [exceptBind_error] at h
    rcases h with h | ⟨s, -, h⟩
    · exact parseSurface_no_unsupported kjaq d h
    rw [exceptBind_error] at h
    rcases h with h | ⟨⟨rest, pf⟩, -, h⟩
    · exact ih p1 h
    · simp at h

theorem readFlagsRecord_ok_np1 (bs : List Nat) (pos : Nat) (np1 : Int)
    (r : (Int × Int × Int) × Nat) (h : readFlagsRecord bs pos np1 = .ok r) :
    np1 < 0 := by
  unfold readFlagsRecord at h
  split_ifs at h with hn
  exact hn

theorem readFlagsRecord_nonneg (bs : List Nat) (pos : Nat) (np1 : Int)
    (h : 0 ≤ np1) : readFlagsRecord bs pos np1 = .error .unsupportedFormat := by
  unfold readFlagsRecord
  rw [if_neg (by omega)]

theorem readExtensions_ok_niwr (bs : List Nat) (pos : Nat) (niwr : Int) (p : Nat)
    (h : readExtensions bs pos niwr = .ok p) : niwr ≤ 0 := by
  unfold readExtensions at h
  split_ifs at h with hn
  · exact hn
  · rw [exceptBind_ok] at h
    obtain ⟨a, -, hbad⟩ := h
    simp at hbad

theorem readExtensions_pos (bs : List Nat) (pos : Nat) (niwr : Int) (d : List Nat)
    (p1 : Nat) (hn : 0 < niwr) (hrec : readFortranRecord bs pos = .ok (d, p1)) :
    readExtensions bs pos niwr = .error .unsupportedFormat := by
  unfold readExtensions
  rw [if_neg (by omega), hrec]
  rfl

theorem parseIdRecord_ok_inv (d : List Nat) (h : parseIdRecord d = .ok ()) :
    utf8Valid d = true ∧ hasRun sigD1suned d = true := by
  unfold parseIdRecord at h
  split_ifs at h with h1 h2 h3
  simp_all

theorem checkNrcd_ok_inv (n : Int) (h : checkNrcd n = .ok ()) : n = 11 := by
  unfold checkNrcd at h
  split_ifs at h with h1
  exact h1

/-- C6: a FormatError arises exactly from a Fortran-record framing mismatch
or a post-header tail whose byte length is not a multiple of 96; the
frombuffer, signature and nrcd stages never produce it, and any load failure
yields no track table at all. -/
theorem c6_formatError_characterization :
    (∀ bs pos, readFortranRecord bs pos = .error .formatError ↔
      pos + 4 ≤ bs.length ∧ recordBodyEnd bs pos + 4 ≤ bs.length ∧
        word4At bs pos ≠ word4At bs (recordBodyEnd bs pos)) ∧
    (∀ tl, readTracks tl = .error .formatError ↔ tl.length % 96 ≠ 0) ∧
    (∀ bs, readRssa bs = .error .formatError ↔
      readHeader bs = .error .formatError ∨
      ∃ h pos, readHeader bs = .ok (h, pos) ∧ (bs.drop pos).length % 96 ≠ 0) ∧
    (∀ d off, readIntAt d off ≠ .error .formatError) ∧
    (∀ d off, readLongAt d off ≠ .error .formatError) ∧
    (∀ d off, readAllIntsFrom d off ≠ .error .formatError) ∧
    (∀ d, parseIdRecord d ≠ .error .formatError) ∧
    (∀ n, checkNrcd n ≠ .error .formatError) ∧
    (∀ bs e, readRssa bs = .error e → ∀ h t, readRssa bs ≠ .ok (h, t)) := by
  refine ⟨readFortranRecord_formatError_iff, readTracks_formatError_iff, ?_,
    ?_, ?_, ?_, ?_, ?_, ?_⟩
  · intro bs
    constructor
    · intro hrr
      unfold readRssa at hrr
      rw [exceptBind_error] at hrr
      rcases hrr with hrr | ⟨⟨h0, pos0⟩, hok, hrr⟩
      · exact Or.inl hrr
      · rw [exceptBind_error] at hrr
        rcases hrr with hrr | ⟨t, -, hbad⟩
        · exact Or.inr ⟨h0, pos0, hok, (readTracks_formatError_iff _).mp hrr⟩
        · simp at hbad
    · rintro (hh | ⟨h, pos, hok, hmod⟩)
      · unfold readRssa
        exact (exceptBind_error _ _ _).mpr (Or.inl hh)
      · unfold readRssa
        refine (exceptBind_error _ _ _).mpr (Or.inr ⟨(h, pos), hok, ?_⟩)
        exact (exceptBind_error _ _ _).mpr
          (Or.inl ((readTracks_formatError_iff _).mpr hmod))
  · intro d off h
    exact absurd (readIntAt_error_cases d off _ h) (by simp)
  · intro d off h
    exact absurd (readLongAt_error_cases d off _ h) (by simp)
  · intro d off h
    exact absurd (readAllIntsFrom_error_cases d off _ h) (by simp)
  · intro d h
    rcases parseIdRecord_error_cases d _ h with h1 | h1 | h1 <;> simp at h1
  · intro n h
    exact absurd (checkNrcd_error_cases n _ h) (by simp)
  · intro bs e he h t hok
    rw [he] at hok
    simp at hok

theorem c6_formatError_characterization_witness :
    readFortranRecord (le4 1 ++ [7] ++ le4 2) 0 = .error .formatError ∧
    readTracks (List.replicate 95 0) = .error .formatError :=
  ⟨(c6_formatError_characterization.1 (le4 1 ++ [7] ++ le4 2) 0).mpr (by decide),
   (c6_formatError_characterization.2.1 (List.replicate 95 0)).mpr (by decide)⟩

/-- C7: an UnsupportedFormatError arises exactly from a missing d1suned
signature in a valid identification record, nrcd different from 11, a
non-negative np1, or a positive niwr; a successfully decoded header
therefore has the signature, nrcd = 11, np1 < 0 and niwr at most 0, and no
other reader stage produces this error. -/
theorem c7_unsupported_characterization :
    (∀ bs h pos, readHeader bs = .ok (h, pos) →
      h.nrcd = 11 ∧ h.np1 < 0 ∧ h.niwr ≤ 0 ∧
      ∃ d p1, readFortranRecord bs 0 = .ok (d, p1) ∧
        utf8Valid d = true ∧ hasRun sigD1suned d = true) ∧
    (∀ d, utf8Valid d = true →
      (parseIdRecord d = .error .unsupportedFormat ↔ hasRun sigD1suned d = false)) ∧
    (∀ d, utf8Valid d = false → parseIdRecord d = .error .decodeError) ∧
    (∀ n, checkNrcd n = .error .unsupportedFormat ↔ n ≠ 11) ∧
    (∀ bs pos np1, 0 ≤ np1 →
      readFlagsRecord bs pos np1 = .error .unsupportedFormat) ∧
    (∀ bs pos niwr d p1, 0 < niwr → readFortranRecord bs pos = .ok (d, p1) →
      readExtensions bs pos niwr = .error .unsupportedFormat) ∧
    (∀ bs pos, readFortranRecord bs pos ≠ .error .unsupportedFormat) ∧
    (∀ bs kjaq n pos, readSurfaces bs kjaq n pos ≠ .error .unsupportedFormat) ∧
    (∀ tl, readTracks tl ≠ .error .unsupportedFormat) := by
  refine ⟨?_, ?_, ?_, ?_, ?_, ?_, readFortranRecord_no_unsupported,
    fun bs kjaq n pos => readSurfaces_no_unsupported bs kjaq n pos, ?_⟩
  · intro bs h pos hok
    obtain ⟨d1, p1, d2, p2, p3, p4, p5, sm, h1, h2, -, -, -, -, -, -, h9, h10,
      -, h12, -⟩ := readHeader_ok_inv bs h pos hok
    obtain ⟨hv, hs⟩ := parseIdRecord_ok_inv d1 h2
    exact ⟨checkNrcd_ok_inv _ h9, readFlagsRecord_ok_np1 _ _ _ _ h10,
      readExtensions_ok_niwr _ _ _ _ h12, d1, p1, h1, hv, hs⟩
  · intro d hv
    unfold parseIdRecord
    rw [if_pos hv]
    cases hr : hasRun sigD1suned d <;> split_ifs <;> simp_all
  · intro d hv
    unfold parseIdRecord
    rw [if_neg (by simp [hv])]
  · intro n
    unfold checkNrcd
    split_ifs with h <;> simp_all
  · exact readFlagsRecord_nonneg
  · intro bs pos niwr d p1 hn hrec
    exact readExtensions_pos bs pos niwr d p1 hn hrec
  · intro tl h
    exact absurd (readTracks_error_cases tl _ h) (by simp)

theorem c7_unsupported_characterization_witness :
    demoHeader.nrcd = 11 ∧ demoHeader.np1 < 0 ∧ demoHeader.niwr ≤ 0 ∧
    ∃ d p1, readFortranRecord demoBytes 0 = .ok (d, p1) ∧
      utf8Valid d = true ∧ hasRun sigD1suned d = true :=
  c7_unsupported_characterization.1 demoBytes demoHeader 119 (by decide)

/-! Lemmas on the numeric binner primitives. -/

theorem truncQ_eq_floor (q : ℚ) (h : 0 ≤ q) : truncQ q = ⌊q⌋ := by
  unfold truncQ
  rw [Rat.floor_def]
  exact Int.tdiv_eq_ediv (Rat.num_nonneg.mpr h) (by positivity)

theorem npLinspace_length (a b : ℚ) (num : Nat) : (npLinspace a b num).length = num := by
  match num with
  | 0 => rfl
  | 1 => rfl
  | n + 2 =>
    show ((List.range (n + 2)).map fun i : Nat => a + (i : ℚ) * (b - a) / ((n : ℚ) + 1)).length
      = n + 2
    rw [List.length_map, List.length_range]

theorem npLinspace_getD0 (a b : ℚ) (m : Nat) : (npLinspace a b (m + 2)).getD 0 0 = a := by
  show (((List.range (m + 2)).map fun i : Nat =>
    a + (i : ℚ) * (b - a) / ((m : ℚ) + 1)).getD 0 0) = a
  rw [List.getD_eq_getElem?_getD, List.getElem?_map, List.getElem?_range (by omega)]
  simp

theorem npLinspace_getD1 (a b : ℚ) (m : Nat) :
    (npLinspace a b (m + 2)).getD 1 0 = a + (b - a) / ((m : ℚ) + 1) := by
  show (((List.range (m + 2)).map fun i : Nat =>
    a + (i : ℚ) * (b - a) / ((m : ℚ) + 1)).getD 1 0) = a + (b - a) / ((m : ℚ) + 1)
  rw [List.getD_eq_getElem?_getD, List.getElem?_map, List.getElem?_range (by omega)]
  simp

theorem closestE_of_length (axis : List ℚ) (h2 : 2 ≤ axis.length) (values : List ℚ) :
    closestE axis values = .ok (values.map (fun v =>
      let i := truncQ ((v - axis.getD 0 0) / (axis.getD 1 0 - axis.getD 0 0))
      if i = (axis.length : Int) - 1 then (axis.length : Int) - 2 else i)) := by
  obtain ⟨a0, a1, rest, rfl⟩ : ∃ a0 a1 rest, axis = a0 :: a1 :: rest := by
    cases axis with
    | nil => simp at h2
    | cons a0 t =>
      cases t with
      | nil => simp at h2
      | cons a1 rest => exact ⟨a0, a1, rest, rfl⟩
  rfl

theorem closestE_ok_length (axis values : List ℚ) (l : List Int)
    (h : closestE axis values = .ok l) : l.length = values.length := by
  unfold closestE at h
  split at h
  · injection h with h
    rw [← h, List.length_map]
  · exact absurd h (by simp)

/-- C8: for a value inside the selected range, the bin index is the floored
linear mapping against the first axis step, and a value exactly at the last
axis edge is clamped into the last valid bin index n - 1 rather than the
out-of-range index n. -/
theorem c8_closest_edge_clamp (a b v : ℚ) (n : Nat) (hn : 0 < n) (hab : a < b)
    (hva : a ≤ v) (hvb : v ≤ b) :
    closestE (npLinspace a b (n + 1)) [v] =
      .ok [if ⌊(v - a) / ((b - a) / (n : ℚ))⌋ = (n : Int) then (n : Int) - 1
           else ⌊(v - a) / ((b - a) / (n : ℚ))⌋] ∧
    (v = b → closestE (npLinspace a b (n + 1)) [v] = .ok [(n : Int) - 1]) := by
  obtain ⟨m, rfl⟩ : ∃ m, n = m + 1 := ⟨n - 1, by omega⟩
  have hlen : (npLinspace a b (m + 2)).length = m + 2 := npLinspace_length a b (m + 2)
  have hax := closestE_of_length (npLinspace a b (m + 2)) (by omega) [v]
  rw [npLinspace_getD0, npLinspace_getD1, hlen] at hax
  simp only [List.map_cons, List.map_nil] at hax
  have hspace : a + (b - a) / ((m : ℚ) + 1) - a = (b - a) / ((m : ℚ) + 1) := by ring
  rw [hspace] at hax
  have hq : (0 : ℚ) ≤ (v - a) / ((b - a) / ((m : ℚ) + 1)) := by
    apply div_nonneg (by linarith)
    apply div_nonneg (by linarith)
    positivity
  rw [truncQ_eq_floor _ hq] at hax
  push_cast at hax
  constructor
  · push_cast
    rw [hax]
    norm_num
    have he1 : (m : Int) + 2 - 1 = (m : Int) + 1 := by ring
    rw [he1]
  · intro hvb2
    rw [hax]
    have hba : b - a ≠ 0 := by linarith
    have hqv : (v - a) / ((b - a) / ((m : ℚ) + 1)) = (m : ℚ) + 1 := by
      rw [hvb2]; field_simp
    have hfl : ⌊((m : ℚ) + 1)⌋ = (m : Int) + 1 := by
      have hc : ((m : ℚ) + 1) = (((m : Int) + 1 : Int) : ℚ) := by push_cast; ring
      rw [hc, Int.floor_intCast]
    rw [hqv, hfl]
    push_cast
    norm_num
    omega

theorem gridSum_nil : gridSum [] = 0 := rfl

theorem gridSum_cons (row : List ℚ) (g : List (List ℚ)) :
    gridSum (row :: g) = row.sum + gridSum g := by
  simp [gridSum]

theorem listSum_mul (l : List ℚ) (c : ℚ) :
    (l.map (fun v => v * c)).sum = l.sum * c := by
  induction l with
  | nil => simp
  | cons a t ih => simp [ih, add_mul]

theorem gridSum_scale (g : List (List ℚ)) (c : ℚ) :
    gridSum (g.map (fun row => row.map (fun v => v * c))) = gridSum g * c := by
  induction g with
  | nil => simp [gridSum]
  | cons row g ih =>
    rw [List.map_cons, gridSum_cons, gridSum_cons, listSum_mul, ih, add_mul]

theorem listSum_set (l : List ℚ) (n : Nat) (x : ℚ) (h : n < l.length) :
    (l.set n x).sum = l.sum - l.getD n 0 + x := by
  induction l generalizing n with
  | nil => simp at h
  | cons a t ih =>
    cases n with
    | zero => simp [List.set]; ring
    | succ n =>
      simp only [List.set, List.sum_cons, List.getD_cons_succ]
      rw [ih n (by simpa using h)]
      ring

theorem gridSum_set (g : List (List ℚ)) (n : Nat) (r : List ℚ) (h : n < g.length) :
    gridSum (g.set n r) = gridSum g - (g.getD n []).sum + r.sum := by
  induction g generalizing n with
  | nil => simp at h
  | cons row g ih =>
    cases n with
    | zero => simp [List.set, gridSum_cons]; ring
    | succ n =>
      simp only [List.set, gridSum_cons, List.getD_cons_succ]
      rw [ih n (by simpa using h)]
      ring

theorem wrapIdx_lt (i : Int) (n : Nat) (k : Nat) (h : wrapIdx i n = .ok k) : k < n := by
  unfold wrapIdx at h
  split_ifs at h with h1 h2 <;> injection h with h <;> omega

theorem gridAddOne_sum (g : List (List ℚ)) (i j : Int) (w : ℚ) (g1 : List (List ℚ))
    (h : gridAddOne g i j w = .ok g1) : gridSum g1 = gridSum g + w := by
  unfold gridAddOne at h
  rw [exceptBind_ok] at h; obtain ⟨iN, hiN, h⟩ := h
  rw [exceptBind_ok] at h; obtain ⟨jN, hjN, h⟩ := h
  injection h with h
  subst h
  have hib : iN < g.length := wrapIdx_lt _ _ _ hiN
  have hjb : jN < (g.getD iN []).length := wrapIdx_lt _ _ _ hjN
  rw [gridSum_set g iN _ hib, listSum_set _ jN _ hjb]
  ring

theorem addAt_ok_sum :
    ∀ (es : List ((Int × Int) × ℚ)) (g g1 : List (List ℚ)),
      addAt g es = .ok g1 → gridSum g1 = gridSum g + (es.map Prod.snd).sum := by
  intro es
  induction es with
  | nil =>
    intro g g1 h
    unfold addAt at h
    injection h with h
    subst h
    simp
  | cons e es ih =>
    intro g g1 h
    obtain ⟨⟨i, j⟩, w⟩ := e
    unfold addAt at h
    rw [exceptBind_ok] at h
    obtain ⟨g2, hg2, h⟩ := h
    rw [ih g2 g1 h, gridAddOne_sum g i j w g2 hg2]
    simp
    ring

theorem zerosGrid_ok_sum (zi ti : Int) (g : List (List ℚ))
    (h : zerosGrid zi ti = .ok g) : gridSum g = 0 := by
  unfold zerosGrid at h
  split_ifs at h
  injection h with h
  subst h
  simp [gridSum, List.map_replicate, List.sum_replicate]

theorem selectQ_length (l : List ℚ) (mask : List Nat) :
    (selectQ l mask).length = mask.length := by
  simp [selectQ]

/-- C2: when the binner succeeds (under any angle, norm and square-root
instantiations) on a selection with nonzero cell area, history count and
source intensity, the sum of the returned values grid times the cell area
times the magnitude of np1, divided by the source intensity, is exactly the
sum of the weight column over the selected rows: no weight is lost to
out-of-range bin indices or duplicated. -/
theorem c2_binning_conservation (norm2 angle : ℚ → ℚ → ℚ) (sqrtQ : ℚ → ℚ)
    (r : RSSAq) (particle : String) (z_int theta_int : Int) (si : ℚ)
    (vr : Option (ℚ × ℚ)) (mask : Option (List Nat)) (pm : List Nat)
    (out : BinnerOut)
    (hpm : pmOf r particle mask = .ok pm)
    (hok : generateFiguresCurrentCyl norm2 angle sqrtQ r particle z_int theta_int
      si vr mask = .ok out)
    (hA : out.area ≠ 0) (hN : (r.np1 : ℚ) ≠ 0) (hS : si ≠ 0) :
    gridSum out.values * out.area * |(r.np1 : ℚ)| / si =
      (selectQ (colAt 2 r.tracks) pm).sum := by
  unfold generateFiguresCurrentCyl at hok
  rw [exceptBind_ok] at hok; obtain ⟨pm0, hpm0, hok⟩ := hok
  rw [hpm] at hpm0
  injection hpm0 with hpm0
  subst hpm0
  rw [exceptBind_ok] at hok; obtain ⟨⟨zax, tax⟩, hax, hok⟩ := hok
  rw [exceptBind_ok] at hok; obtain ⟨grid0, hg0, hok⟩ := hok
  rw [exceptBind_ok] at hok; obtain ⟨egrid0, heg0, hok⟩ := hok
  rw [exceptBind_ok] at hok; obtain ⟨zIdx, hzi, hok⟩ := hok
  rw [exceptBind_ok] at hok; obtain ⟨tIdx, hti, hok⟩ := hok
  rw [exceptBind_ok] at hok; obtain ⟨grid1, hg1, hok⟩ := hok
  rw [exceptBind_ok] at hok; obtain ⟨egrid1, heg1, hok⟩ := hok
  injection hok with hok
  subst hok
  set A := |norm2 ((colAt 5 r.tracks).getD 0 0) ((colAt 6 r.tracks).getD 0 0) *
      (tax.getD 1 0 - tax.getD 0 0) * (zax.getD 1 0 - zax.getD 0 0)| with hAdef
  set B := |(r.np1 : ℚ)| with hBdef
  have hA2 : A ≠ 0 := hA
  have hB2 : B ≠ 0 := abs_ne_zero.mpr hN
  have hzl : zIdx.length = pm.length := by
    rw [closestE_ok_length _ _ _ hzi, selectQ_length]
  have htl : tIdx.length = pm.length := by
    rw [closestE_ok_length _ _ _ hti, List.length_zipWith, selectQ_length, selectQ_length]
    omega
  have hwl : (selectQ (colAt 2 r.tracks) pm).length = pm.length := selectQ_length _ _
  have hsnd : (((zIdx.zip tIdx).zip (selectQ (colAt 2 r.tracks) pm)).map Prod.snd) =
      selectQ (colAt 2 r.tracks) pm := by
    apply List.map_snd_zip
    rw [List.length_zip]
    omega
  have hraw : gridSum grid1 = (selectQ (colAt 2 r.tracks) pm).sum := by
    rw [addAt_ok_sum _ _ _ hg1, zerosGrid_ok_sum _ _ _ hg0, hsnd]
    ring
  have hfun : (fun v : ℚ => v / A / B * si) = fun v : ℚ => v * (si / (A * B)) := by
    funext v
    field_simp
  have hscale : gridSum (grid1.map (fun row => row.map (fun v => v / A / B * si))) =
      gridSum grid1 * (si / (A * B)) := by
    rw [hfun, gridSum_scale]
  show gridSum (grid1.map (fun row => row.map (fun v => v / A / B * si))) * A * B / si =
    (selectQ (colAt 2 r.tracks) pm).sum
  rw [hscale, hraw]
  field_simp
  ring

unseal Rat.add Rat.mul Rat.sub Rat.inv in
theorem c2_binning_conservation_witness :
    gridSum demoOut.values * demoOut.area * |((demoQ.np1 : Int) : ℚ)| / 1 =
      (selectQ (colAt 2 demoQ.tracks) [0, 1]).sum :=
  c2_binning_conservation norm2W angleW sqrtW demoQ "n" 1 1 1 none none [0, 1]
    demoOut (by decide) (by decide) (by decide) (by decide) (by decide)

unseal Rat.add Rat.mul Rat.sub Rat.inv in
theorem c8_closest_edge_clamp_witness :
    closestE (npLinspace 0 10 (2 + 1)) [10] =
      .ok [if ⌊((10 : ℚ) - 0) / ((10 - 0) / (2 : ℚ))⌋ = (2 : Int) then (2 : Int) - 1
           else ⌊((10 : ℚ) - 0) / ((10 - 0) / (2 : ℚ))⌋] ∧
    ((10 : ℚ) = 10 → closestE (npLinspace 0 10 (2 + 1)) [10] = .ok [(2 : Int) - 1]) :=
  c8_closest_edge_clamp 0 10 10 2 (by norm_num) (by norm_num) (by norm_num) (by norm_num)

/-- C5 (amended): an unknown particle-kind selector is rejected with the
invalid-argument error before any other computation, both by the mask
accessor and by the binner entry point for arbitrary remaining arguments;
non-positive bin counts are not validated up front (see the
counterexample). -/
theorem c5_invalid_selector (r : RSSAq) (particle : String)
    (hp : particle ≠ "n") (hq : particle ≠ "p") :
    getParticleMask r particle = .error .invalidArgument ∧
    ∀ (norm2 angle : ℚ → ℚ → ℚ) (sqrtQ : ℚ → ℚ) (z_int theta_int : Int) (si : ℚ)
      (vr : Option (ℚ × ℚ)) (mask : Option (List Nat)),
      generateFiguresCurrentCyl norm2 angle sqrtQ r particle z_int theta_int si
        vr mask = .error .invalidArgument := by
  have h1 : getParticleMask r particle = .error .invalidArgument := by
    unfold getParticleMask
    rw [if_neg hp, if_neg hq]
  refine ⟨h1, ?_⟩
  intro norm2 angle sqrtQ z_int theta_int si vr mask
  have h2 : pmOf r particle mask = .error .invalidArgument := by
    unfold pmOf
    exact (exceptBind_error _ _ _).mpr (Or.inl h1)
  unfold generateFiguresCurrentCyl
  exact (exceptBind_error _ _ _).mpr (Or.inl h2)

theorem c5_invalid_selector_witness :
    getParticleMask demoQ "x" = .error .invalidArgument ∧
    ∀ (norm2 angle : ℚ → ℚ → ℚ) (sqrtQ : ℚ → ℚ) (z_int theta_int : Int) (si : ℚ)
      (vr : Option (ℚ × ℚ)) (mask : Option (List Nat)),
      generateFiguresCurrentCyl norm2 angle sqrtQ demoQ "x" z_int theta_int si
        vr mask = .error .invalidArgument :=
  c5_invalid_selector demoQ "x" (by decide) (by decide)

unseal Rat.add Rat.mul Rat.sub Rat.inv in
/-- C5 counterexample: with the valid selector n but the non-positive bin
count z_int = 0, the binner does not fail with the invalid-argument error:
it builds a one-point z axis and dies later with an index error when closest
reads axis[1]. -/
theorem c5_invalid_selector_cex :
    generateFiguresCurrentCyl norm2W angleW sqrtW demoQ "n" 0 1 1 none none =
      .error .indexError ∧ Err.indexError ≠ Err.invalidArgument := by decide

unseal Rat.add Rat.mul Rat.sub Rat.inv in
/-- C3: on an empty selection (a photon-only table binned with the neutron
selector) the binner runs into the empty-array min reduction inside the axis
computation and aborts with that numpy error; the code holds no explicit
empty-selection guard, though no grid is returned either way. -/
theorem c3_empty_selection_behavior :
    generateFiguresCurrentCyl norm2W angleW sqrtW photonQ "n" 10 10 1 none none =
      .error .emptyReduce := by decide

unseal Rat.add Rat.mul Rat.sub Rat.inv in
/-- C9: a call that supplies only the circumferential x_range filter (no
z_range) leaves the mask variable as None and np.intersect1d then raises a
TypeError, so binning never happens; the same filter together with an
axial filter that keeps every row reaches the binner normally. -/
theorem c9_xRange_only_fails :
    plotCurrentCyl norm2W angleW sqrtW demoQ "n" 1 1 1 none (some (0, 10)) none =
      .error .typeError ∧
    plotCurrentCyl norm2W angleW sqrtW demoQ "n" 1 1 1 none (some (-1, 2))
      (some (-1, 11)) = .ok demoOut := by decide

/-- C10: the cylinder radius is everywhere norm([x[0], y[0]]) of row 0 of
the full track table — in the summary text, in the circumferential
pre-filter values of plot_current_cyl, and in the area, extent and
resolution of the binner — independent of the particle selector and of any
mask, so all radius uses in one binning call agree. -/
theorem c10_radius_consistency (norm2 angle : ℚ → ℚ → ℚ) (sqrtQ : ℚ → ℚ)
    (r : RSSAq) (particle : String) (z_int theta_int : Int) (si : ℚ)
    (vr : Option (ℚ × ℚ)) (mask : Option (List Nat)) :
    getInfoRadius norm2 r.tracks = cylinderRadius norm2 r.tracks ∧
    perimeterValues norm2 angle r.tracks =
      (List.zipWith angle (colAt 5 r.tracks) (colAt 6 r.tracks)).map
        (fun t => cylinderRadius norm2 r.tracks * t) ∧
    (∀ (out : BinnerOut) (pm : List Nat) (zax tax : List ℚ),
      pmOf r particle mask = .ok pm →
      calculateGridAxesCyl angle r z_int theta_int (some pm) = .ok (zax, tax) →
      generateFiguresCurrentCyl norm2 angle sqrtQ r particle z_int theta_int si
        vr mask = .ok out →
      out.area = |cylinderRadius norm2 r.tracks * (tax.getD 1 0 - tax.getD 0 0) *
          (zax.getD 1 0 - zax.getD 0 0)| ∧
      out.extent = [cylinderRadius norm2 r.tracks * tax.getD 0 0,
        cylinderRadius norm2 r.tracks * tax.getLastD 0, zax.getD 0 0,
        zax.getLastD 0] ∧
      out.resolution.1 = cylinderRadius norm2 r.tracks *
        (tax.getD 1 0 - tax.getD 0 0)) := by
  refine ⟨rfl, rfl, ?_⟩
  intro out pm zax tax hpm haxes hok
  unfold generateFiguresCurrentCyl at hok
  rw [exceptBind_ok] at hok; obtain ⟨pm0, hpm0, hok⟩ := hok
  rw [hpm] at hpm0
  injection hpm0 with hpm0
  subst hpm0
  rw [exceptBind_ok] at hok; obtain ⟨⟨zax0, tax0⟩, hax0, hok⟩ := hok
  rw [haxes] at hax0
  injection hax0 with hax0
  injection hax0 with hax1 hax2
  subst hax1
  subst hax2
  rw [exceptBind_ok] at hok; obtain ⟨grid0, hg0, hok⟩ := hok
  rw [exceptBind_ok] at hok; obtain ⟨egrid0, heg0, hok⟩ := hok
  rw [exceptBind_ok] at hok; obtain ⟨zIdx, hzi, hok⟩ := hok
  rw [exceptBind_ok] at hok; obtain ⟨tIdx, hti, hok⟩ := hok
  rw [exceptBind_ok] at hok; obtain ⟨grid1, hg1, hok⟩ := hok
  rw [exceptBind_ok] at hok; obtain ⟨egrid1, heg1, hok⟩ := hok
  injection hok with hok
  subst hok
  exact ⟨rfl, rfl, rfl⟩

unseal Rat.add Rat.mul Rat.sub Rat.inv in
theorem c10_radius_consistency_witness :
    getInfoRadius norm2W demoQ.tracks = cylinderRadius norm2W demoQ.tracks ∧
    demoOut.area = |cylinderRadius norm2W demoQ.tracks *
      (([(0 : ℚ), 1]).getD 1 0 - ([(0 : ℚ), 1]).getD 0 0) *
      (([(0 : ℚ), 10]).getD 1 0 - ([(0 : ℚ), 10]).getD 0 0)| :=
  ⟨(c10_radius_consistency norm2W angleW sqrtW demoQ "n" 1 1 1 none none).1,
    ((c10_radius_consistency norm2W angleW sqrtW demoQ "n" 1 1 1 none none).2.2
      demoOut [0, 1] [0, 10] [0, 1] (by decide) (by decide) (by decide)).1⟩
